import Mathlib

/-!
Verification of the `collected-notes` typed API client (`src/index.tsx`).

The library is a collection of thin request-building functions: every
operation builds one URL, attaches a fixed header set, serializes an
optional JSON body, issues one request through a fetch-like transport and
returns the response decoded as JSON or as raw text.

Shallow embedding used here:

* A `Request` is the data handed to the transport (`url`, `method`,
  `headers`, `body`), and a `Response` models the fetch response: `ok` and
  `status` for status inspection, `text` for the raw body, and `json` for
  the result of parsing that body as JSON (`none` when parsing fails).
* The transport collaborator (`fetch`) is a function `Request → Response`.
* Every operation returns the list of requests it issued (its transport
  invocations, in order) paired with the value its promise resolves to.
* `JSON.stringify`, `encodeURI` and number-to-string interpolation are
  modelled after their ECMAScript definitions, restricted to the value
  shapes the library actually serializes.
-/

/-- A JSON value, used both for request payloads and decoded responses. -/
inductive Json where
  | null : Json
  | bool (b : Bool) : Json
  | num (n : Int) : Json
  | str (s : String) : Json
  | arr (xs : List Json) : Json
  | obj (fields : List (String × Json)) : Json

/-- Decimal digits of a natural number (fuel-indexed so it is structural). -/
def natToCharsAux : Nat → Nat → List Char
  | 0, _ => []
  | fuel + 1, n =>
    if n < 10 then [Char.ofNat (48 + n)]
    else natToCharsAux fuel (n / 10) ++ [Char.ofNat (48 + n % 10)]

/-- ECMAScript number-to-string conversion for the natural numbers the
library interpolates into URLs (site ids, note ids, pages). -/
def natToString (n : Nat) : String := String.mk (natToCharsAux (n + 1) n)

/-- ECMAScript number-to-string conversion for integers (JSON payloads). -/
def intToString : Int → String
  | .ofNat m => natToString m
  | .negSucc m => "-" ++ natToString (m + 1)

/-- Minimal JSON string escaping: backslash, double quote and newline.
The library only ever serializes caller-supplied note bodies and fixed
visibility strings. -/
def jsonEscapeChar (c : Char) : List Char :=
  if c.toNat = 34 then ['\\', '"']
  else if c.toNat = 92 then ['\\', '\\']
  else if c.toNat = 10 then ['\\', 'n']
  else [c]

def jsonEscape : List Char → List Char
  | [] => []
  | c :: rest => jsonEscapeChar c ++ jsonEscape rest

def jsonQuote (s : String) : String := "\"" ++ String.mk (jsonEscape s.data) ++ "\""

mutual

/-- Model of `JSON.stringify` on the value shapes the library serializes. -/
def jsonStringify : Json → String
  | .null => "null"
  | .bool b => if b then "true" else "false"
  | .num n => intToString n
  | .str s => jsonQuote s
  | .arr xs => "[" ++ (jsonStringifyArr xs ++ "]")
  | .obj fields => "\x7b" ++ (jsonStringifyFields fields ++ "\x7d")

def jsonStringifyArr : List Json → String
  | [] => ""
  | [x] => jsonStringify x
  | x :: y :: xs => jsonStringify x ++ ("," ++ jsonStringifyArr (y :: xs))

def jsonStringifyFields : List (String × Json) → String
  | [] => ""
  | [(k, v)] => jsonQuote k ++ (":" ++ jsonStringify v)
  | (k, v) :: f :: fs =>
    jsonQuote k ++ (":" ++ (jsonStringify v ++ ("," ++ jsonStringifyFields (f :: fs))))

end

/-- Hexadecimal digit character (uppercase, as produced by `encodeURI`). -/
def hexDigitChar (n : Nat) : Char :=
  if n < 10 then Char.ofNat (48 + n) else Char.ofNat (55 + n)

/-- The UTF-8 byte sequence of a character (ECMAScript URI encoding works
on the UTF-8 bytes of the string). -/
def utf8Bytes (c : Char) : List Nat :=
  if c.toNat < 128 then [c.toNat]
  else if c.toNat < 2048 then [192 + c.toNat / 64, 128 + c.toNat % 64]
  else if c.toNat < 65536 then
    [224 + c.toNat / 4096, 128 + c.toNat / 64 % 64, 128 + c.toNat % 64]
  else
    [240 + c.toNat / 262144, 128 + c.toNat / 4096 % 64, 128 + c.toNat / 64 % 64,
      128 + c.toNat % 64]

/-- UTF-8 bytes of a whole character list. -/
def utf8EncodeChars : List Char → List Nat
  | [] => []
  | c :: rest => utf8Bytes c ++ utf8EncodeChars rest

/-- Percent-escape of one byte: `%XY`. -/
def pctTriple (b : Nat) : List Char := ['%', hexDigitChar (b / 16), hexDigitChar (b % 16)]

def pctEncodeBytes : List Nat → List Char
  | [] => []
  | b :: bs => pctTriple b ++ pctEncodeBytes bs

/-- The set `encodeURI` leaves unescaped (ECMA-262 `uriUnescaped` together
with `uriReserved` and lone `#`), by character code:
`A-Z` (65-90), `a-z` (97-122), `0-9` (48-57),
the marks `- _ . ! ~ * ' ( )` (45 95 46 33 126 42 39 40 41),
the reserved `; / ? : @ & = + $ ,` (59 47 63 58 64 38 61 43 36 44),
and `#` (35). -/
def uriUnescaped (c : Char) : Bool :=
  decide ((65 ≤ c.toNat ∧ c.toNat ≤ 90) ∨ (97 ≤ c.toNat ∧ c.toNat ≤ 122) ∨
    (48 ≤ c.toNat ∧ c.toNat ≤ 57) ∨
    c.toNat = 45 ∨ c.toNat = 95 ∨ c.toNat = 46 ∨ c.toNat = 33 ∨ c.toNat = 126 ∨
    c.toNat = 42 ∨ c.toNat = 39 ∨ c.toNat = 40 ∨ c.toNat = 41 ∨
    c.toNat = 59 ∨ c.toNat = 47 ∨ c.toNat = 63 ∨ c.toNat = 58 ∨ c.toNat = 64 ∨
    c.toNat = 38 ∨ c.toNat = 61 ∨ c.toNat = 43 ∨ c.toNat = 36 ∨ c.toNat = 44 ∨
    c.toNat = 35)

/-- `encodeURI` on one character: kept verbatim when unescaped, otherwise
each UTF-8 byte is percent-escaped. -/
def encChar (c : Char) : List Char :=
  if uriUnescaped c then [c] else pctEncodeBytes (utf8Bytes c)

def encodeURIChars : List Char → List Char
  | [] => []
  | c :: rest => encChar c ++ encodeURIChars rest

/-- Model of ECMAScript `encodeURI`, used by the `search` operation. -/
def encodeURI (s : String) : String := String.mk (encodeURIChars s.data)

/-- Hexadecimal digit value, accepting both cases (query-string decoding). -/
def hexVal (c : Char) : Option Nat :=
  if 48 ≤ c.toNat ∧ c.toNat ≤ 57 then some (c.toNat - 48)
  else if 65 ≤ c.toNat ∧ c.toNat ≤ 70 then some (c.toNat - 55)
  else if 97 ≤ c.toNat ∧ c.toNat ≤ 102 then some (c.toNat - 87)
  else none

/-- Standard percent-decoding of a query-string component to its byte
sequence: a `%` followed by two hex digits yields that byte, every other
character yields its own code. -/
def pctDecodeBytes : List Char → List Nat
  | [] => []
  | [c] => [c.toNat]
  | [c, d] => [c.toNat, d.toNat]
  | c :: h1 :: h2 :: rest =>
    if c.toNat = 37 then
      match hexVal h1, hexVal h2 with
      | some a, some b => (16 * a + b) :: pctDecodeBytes rest
      | _, _ => c.toNat :: pctDecodeBytes (h1 :: h2 :: rest)
    else c.toNat :: pctDecodeBytes (h1 :: h2 :: rest)

/-- The part of a URL before its first `#` (code 35): in a standard URL
parse the fragment delimiter terminates every other component, so the
query component never extends past it. -/
def beforeHash : List Char → List Char
  | [] => []
  | c :: rest => if c.toNat = 35 then [] else c :: beforeHash rest

/-- The part after the first `?` (code 63): the query string. -/
def afterQuestion : List Char → List Char
  | [] => []
  | c :: rest => if c.toNat = 63 then rest else afterQuestion rest

/-- A query parameter value: the characters up to the next `&` (code 38). -/
def paramValue : List Char → List Char
  | [] => []
  | c :: rest => if c.toNat = 38 then [] else c :: paramValue rest

/-- Skip past the next `&` (code 38), i.e. to the start of the next
query-string pair. -/
def dropPair : List Char → List Char
  | [] => []
  | c :: rest => if c.toNat = 38 then rest else dropPair rest

/-- Scan the query string pair by pair for one named `term`
(fuel-indexed so it is structural; the fuel is the query length). -/
def findTermAux : Nat → List Char → Option (List Char)
  | 0, _ => none
  | _ + 1, 't' :: 'e' :: 'r' :: 'm' :: '=' :: v => some (paramValue v)
  | _ + 1, [] => none
  | fuel + 1, c :: q => findTermAux fuel (dropPair (c :: q))

/-- Standard query-string lookup of the `term` parameter. -/
def findTermQ (q : List Char) : Option (List Char) := findTermAux q.length q

/-- Standard query-string parsing of a URL: the query component is what
lies after the first `?` and before the fragment delimiter `#`; extract
its `term` parameter and percent-decode it to its byte sequence. -/
def parsedTermBytes (url : String) : Option (List Nat) :=
  (findTermQ (afterQuestion (beforeHash url.data))).map pctDecodeBytes

/-- A request as handed to the `fetch` transport. -/
structure Request where
  url : String
  method : String
  headers : List (String × String)
  body : Option String

/-- A fetch response: status information, the raw body text, and the JSON
decoding of that body (`none` when the body is not valid JSON). -/
structure Response where
  ok : Bool
  status : Nat
  json : Option Json
  text : String

/-- The transport collaborator: a fetch-like primitive. -/
abbrev Transport := Request → Response

/-- The visibility of a note (`NoteVisibility` in the source). -/
inductive NoteVisibility where
  | notePrivate
  | notePublic
  | publicUnlisted
  | sitePublic

def NoteVisibility.toStr : NoteVisibility → String
  | .notePrivate => "private"
  | .notePublic => "public"
  | .publicUnlisted => "public_unlisted"
  | .sitePublic => "site_public"

/-- The visibility subset accepted by the public `site` function
(`Extract<NoteVisibility, 'public' | 'site_public'>` in the source). -/
inductive PublicVisibility where
  | pub
  | sitePub

def PublicVisibility.toStr : PublicVisibility → String
  | .pub => "public"
  | .sitePub => "site_public"

/-- The format argument of `read` (`NoteFormat` in the source). -/
inductive NoteFormat where
  | json
  | md
  | txt

/-- The format argument of `links`. -/
inductive LinksFormat where
  | json
  | html

/-- The `{ body, visibility }` pair passed to `create` and `update`. -/
structure NoteContent where
  body : String
  visibility : NoteVisibility

/-- The value `read` resolves to: a decoded JSON structure for the `json`
format, raw response text for `md` and `txt`. -/
inductive ReadResult where
  | asJson (j : Option Json)
  | asText (s : String)

/-- The header object built once by the `collectedNotes` factory and
attached to every authenticated request. -/
def authHeaders (email token : String) : List (String × String) :=
  [("Authorization", email ++ (" " ++ token)),
   ("Accept", "application/json"),
   ("Content-Type", "application/json")]

/-- `JSON.stringify({ note: { body, visibility } })`, the payload of
`create` and `update`. -/
def notePayload (note : NoteContent) : String :=
  jsonStringify (Json.obj [("note",
    Json.obj [("body", Json.str note.body), ("visibility", Json.str note.visibility.toStr)])])

/-- `latestNotes(siteId, page = 1)`: GET one page of a site's notes. -/
def latestNotes (headers : List (String × String)) (siteId : Nat) (page : Option Nat)
    (tr : Transport) : List Request × Option Json :=
  let p := page.getD 1
  let req : Request :=
    { url := "https://collectednotes.com/sites/" ++
        (natToString siteId ++ ("/notes?page=" ++ natToString p)),
      method := "GET", headers := headers, body := none }
  ([req], (tr req).json)

/-- `sites()`: GET the list of sites of the user. -/
def sites (headers : List (String × String)) (tr : Transport) :
    List Request × Option Json :=
  let req : Request :=
    { url := "https://collectednotes.com/sites", method := "GET",
      headers := headers, body := none }
  ([req], (tr req).json)

/-- `create(note, siteId?)`: POST a new note. The source picks the URL
with `siteId ? ... : ...`, a JavaScript truthiness test, so a missing
site id and a site id of `0` both select the default endpoint. -/
def create (headers : List (String × String)) (note : NoteContent)
    (siteId : Option Nat) (tr : Transport) : List Request × Option Json :=
  let url := match siteId with
    | some n =>
      if n != 0 then "https://collectednotes.com/sites/" ++ (natToString n ++ "/notes")
      else "https://collectednotes.com/notes/add"
    | none => "https://collectednotes.com/notes/add"
  let req : Request :=
    { url := url, method := "POST", headers := headers,
      body := some (notePayload note) }
  ([req], (tr req).json)

/-- `update(siteId, noteId, note)`: POST the new body and visibility. -/
def update (headers : List (String × String)) (siteId noteId : Nat)
    (note : NoteContent) (tr : Transport) : List Request × Option Json :=
  let req : Request :=
    { url := "https://collectednotes.com/sites/" ++
        (natToString siteId ++ ("/notes/" ++ natToString noteId)),
      method := "POST", headers := headers, body := some (notePayload note) }
  ([req], (tr req).json)

/-- `destroy(siteId, noteId)`: DELETE the note. The source awaits the
fetch and returns nothing (`Promise<void>`), so the response is
discarded. -/
def destroy (headers : List (String × String)) (siteId noteId : Nat)
    (tr : Transport) : List Request × Unit :=
  let req : Request :=
    { url := "https://collectednotes.com/sites/" ++
        (natToString siteId ++ ("/notes/" ++ natToString noteId)),
      method := "DELETE", headers := headers, body := none }
  let _ := tr req
  ([req], ())

/-- `me()`: GET the authenticated user's profile. -/
def me (headers : List (String × String)) (tr : Transport) :
    List Request × Option Json :=
  let req : Request :=
    { url := "https://collectednotes.com/accounts/me", method := "GET",
      headers := headers, body := none }
  ([req], (tr req).json)

/-- `reorder(siteId, noteIdList)`: POST `{ ids: noteIdList }` and resolve
to the JSON decoded from the response. -/
def reorder (headers : List (String × String)) (siteId : Nat)
    (noteIdList : List Nat) (tr : Transport) : List Request × Option Json :=
  let req : Request :=
    { url := "https://collectednotes.com/sites/" ++
        (natToString siteId ++ "/notes/reorder"),
      method := "POST", headers := headers,
      body := some (jsonStringify (Json.obj
        [("ids", Json.arr (noteIdList.map (fun i => Json.num (Int.ofNat i))))])) }
  ([req], (tr req).json)

/-- `search(sitePath, term, page = 1, visibility?)`: GET with the
`encodeURI`-encoded term in the query string. -/
def search (headers : List (String × String)) (sitePath term : String)
    (page : Option Nat) (visibility : Option NoteVisibility) (tr : Transport) :
    List Request × Option Json :=
  let p := page.getD 1
  let url := match visibility with
    | some v => "https://collectednotes.com/sites/" ++
        (sitePath ++ ("/notes/search?term=" ++
          (encodeURI term ++ ("&page=" ++ (natToString p ++ ("&visibility=" ++ v.toStr))))))
    | none => "https://collectednotes.com/sites/" ++
        (sitePath ++ ("/notes/search?term=" ++
          (encodeURI term ++ ("&page=" ++ natToString p))))
  let req : Request := { url := url, method := "GET", headers := headers, body := none }
  ([req], (tr req).json)

/-- `body(siteId, noteId)`: GET the note plus its rendered HTML body. -/
def body (headers : List (String × String)) (siteId noteId : Nat)
    (tr : Transport) : List Request × Option Json :=
  let req : Request :=
    { url := "https://collectednotes.com/sites/" ++
        (natToString siteId ++ ("/notes/" ++ (natToString noteId ++ "/body"))),
      method := "GET", headers := headers, body := none }
  ([req], (tr req).json)

/-- `links(siteId, noteId, format = 'json')`: GET the links of a note.
The format only selects the URL suffix; the response is decoded with
`.json()` in both cases. -/
def links (headers : List (String × String)) (siteId noteId : Nat)
    (format : Option LinksFormat) (tr : Transport) : List Request × Option Json :=
  let suffix := match format.getD .json with
    | LinksFormat.json => ".json"
    | LinksFormat.html => ""
  let req : Request :=
    { url := "https://collectednotes.com/sites/" ++
        (natToString siteId ++ ("/notes/" ++ (natToString noteId ++
          ("/links" ++ suffix)))),
      method := "GET", headers := headers, body := none }
  ([req], (tr req).json)

/-- Module-level `site(sitePath, page = 1, visibility = 'public')`:
public endpoint, no auth headers. -/
def site (sitePath : String) (page : Option Nat)
    (visibility : Option PublicVisibility) (tr : Transport) :
    List Request × Option Json :=
  let p := page.getD 1
  let v := visibility.getD .pub
  let req : Request :=
    { url := "https://collectednotes.com/" ++
        (sitePath ++ (".json?page=" ++ (natToString p ++ ("&visibility=" ++ v.toStr)))),
      method := "GET", headers := [], body := none }
  ([req], (tr req).json)

/-- Module-level `read(sitePath, notePath, format = 'json')`: public
endpoint, no auth headers; the URL suffix and the result kind follow the
format. -/
def read (sitePath notePath : String) (format : Option NoteFormat)
    (tr : Transport) : List Request × ReadResult :=
  match format.getD .json with
  | .json =>
    let req : Request :=
      { url := "https://collectednotes.com/" ++
          (sitePath ++ ("/" ++ (notePath ++ ".json"))),
        method := "GET", headers := [], body := none }
    ([req], .asJson (tr req).json)
  | .md =>
    let req : Request :=
      { url := "https://collectednotes.com/" ++
          (sitePath ++ ("/" ++ (notePath ++ ".md"))),
        method := "GET", headers := [], body := none }
    ([req], .asText (tr req).text)
  | .txt =>
    let req : Request :=
      { url := "https://collectednotes.com/" ++
          (sitePath ++ ("/" ++ (notePath ++ ".text"))),
        method := "GET", headers := [], body := none }
    ([req], .asText (tr req).text)

/-- The object returned by the `collectedNotes` factory. -/
structure CollectedNotesClient where
  latestNotes : Nat → Option Nat → Transport → List Request × Option Json
  sites : Transport → List Request × Option Json
  create : NoteContent → Option Nat → Transport → List Request × Option Json
  read : String → String → Option NoteFormat → Transport → List Request × ReadResult
  update : Nat → Nat → NoteContent → Transport → List Request × Option Json
  destroy : Nat → Nat → Transport → List Request × Unit
  me : Transport → List Request × Option Json
  reorder : Nat → List Nat → Transport → List Request × Option Json
  search : String → String → Option Nat → Option NoteVisibility → Transport →
    List Request × Option Json
  body : Nat → Nat → Transport → List Request × Option Json
  links : Nat → Nat → Option LinksFormat → Transport → List Request × Option Json
  site : String → Option Nat → Option PublicVisibility → Transport →
    List Request × Option Json

/-- `collectedNotes(email, token)`: builds the shared header object and
returns the bound operation set; `read` and `site` are the module-level
unauthenticated functions re-exposed unchanged. -/
def collectedNotes (email token : String) : CollectedNotesClient where
  latestNotes := latestNotes (authHeaders email token)
  sites := sites (authHeaders email token)
  create := create (authHeaders email token)
  read := read
  update := update (authHeaders email token)
  destroy := destroy (authHeaders email token)
  me := me (authHeaders email token)
  reorder := reorder (authHeaders email token)
  search := search (authHeaders email token)
  body := body (authHeaders email token)
  links := links (authHeaders email token)
  site := site

/-- A transport whose every response is `ok` with JSON body `null`. -/
def stubTransport : Transport :=
  fun _ => { ok := true, status := 200, json := some Json.null, text := "null" }

/-- A transport returning a pre-rendered HTML fragment: the body text is
not valid JSON, so its JSON decoding is `none`. -/
def htmlTransport : Transport :=
  fun _ => { ok := true, status := 200, json := none, text := "<ul><li>a link</li></ul>" }

/-- A transport returning the JSON array `[2,3,1]`. -/
def idsTransport : Transport :=
  fun _ => { ok := true, status := 200,
             json := some (Json.arr [Json.num 2, Json.num 3, Json.num 1]),
             text := "[2,3,1]" }

/-! ### Helper lemmas about the URI encoding and query-string parsing model -/

theorem char_toNat_lt (c : Char) : c.toNat < 1114112 := by
  have h := c.valid
  rcases h with h | h
  · exact Nat.lt_trans h (by norm_num)
  · exact h.2

theorem utf8Bytes_lt (c : Char) : ∀ b ∈ utf8Bytes c, b < 256 := by
  intro b hb
  have hc := char_toNat_lt c
  unfold utf8Bytes at hb
  split_ifs at hb with h1 h2 h3
  · simp only [List.mem_singleton] at hb
    omega
  · simp only [List.mem_cons, List.mem_singleton, List.not_mem_nil, or_false] at hb
    rcases hb with h | h <;> omega
  · simp only [List.mem_cons, List.mem_singleton, List.not_mem_nil, or_false] at hb
    rcases hb with h | h | h <;> omega
  · simp only [List.mem_cons, List.mem_singleton, List.not_mem_nil, or_false] at hb
    rcases hb with h | h | h | h <;> omega

theorem utf8Bytes_ascii (c : Char) (h : c.toNat < 128) : utf8Bytes c = [c.toNat] := by
  unfold utf8Bytes
  rw [if_pos h]

theorem uriUnescaped_bounds (c : Char) (h : uriUnescaped c = true) :
    c.toNat < 128 ∧ c.toNat ≠ 37 := by
  unfold uriUnescaped at h
  rw [decide_eq_true_eq] at h
  omega

theorem hexVal_hexDigitChar : ∀ v : Fin 16, hexVal (hexDigitChar v.val) = some v.val := by
  decide

theorem hexDigitChar_ne_amp : ∀ v : Fin 16, (hexDigitChar v.val).toNat ≠ 38 := by
  decide

theorem pctDecode_raw (c : Char) (h : c.toNat ≠ 37) (rest : List Char) :
    pctDecodeBytes (c :: rest) = c.toNat :: pctDecodeBytes rest := by
  match rest with
  | [] => rfl
  | [d] => rfl
  | h1 :: h2 :: r =>
    show pctDecodeBytes (c :: h1 :: h2 :: r) = _
    rw [pctDecodeBytes, if_neg h]

theorem pctDecode_triple (b : Nat) (hb : b < 256) (rest : List Char) :
    pctDecodeBytes (pctTriple b ++ rest) = b :: pctDecodeBytes rest := by
  have h1 : hexVal (hexDigitChar (b / 16)) = some (b / 16) :=
    hexVal_hexDigitChar ⟨b / 16, by omega⟩
  have h2 : hexVal (hexDigitChar (b % 16)) = some (b % 16) :=
    hexVal_hexDigitChar ⟨b % 16, by omega⟩
  show pctDecodeBytes ('%' :: hexDigitChar (b / 16) :: hexDigitChar (b % 16) :: rest) = _
  rw [pctDecodeBytes, if_pos (show '%'.toNat = 37 by decide), h1, h2]
  show (16 * (b / 16) + b % 16) :: pctDecodeBytes rest = _
  congr 1
  omega

theorem pctDecode_encBytes (bs : List Nat) (h : ∀ b ∈ bs, b < 256) (rest : List Char) :
    pctDecodeBytes (pctEncodeBytes bs ++ rest) = bs ++ pctDecodeBytes rest := by
  induction bs with
  | nil => rfl
  | cons b bs ih =>
    rw [show pctEncodeBytes (b :: bs) ++ rest = pctTriple b ++ (pctEncodeBytes bs ++ rest) by
      rw [pctEncodeBytes, List.append_assoc]]
    rw [pctDecode_triple b (h b (List.mem_cons_self b bs)) _,
      ih (fun x hx => h x (List.mem_cons_of_mem b hx))]
    rfl

theorem pctDecode_encChar (c : Char) (rest : List Char) :
    pctDecodeBytes (encChar c ++ rest) = utf8Bytes c ++ pctDecodeBytes rest := by
  unfold encChar
  by_cases h : uriUnescaped c = true
  · rw [if_pos h]
    obtain ⟨hlt, hne⟩ := uriUnescaped_bounds c h
    rw [utf8Bytes_ascii c hlt]
    exact pctDecode_raw c hne rest
  · rw [if_neg h]
    exact pctDecode_encBytes _ (utf8Bytes_lt c) rest

theorem pctDecode_encodeURIChars (cs : List Char) :
    pctDecodeBytes (encodeURIChars cs) = utf8EncodeChars cs := by
  induction cs with
  | nil => rfl
  | cons c cs ih =>
    show pctDecodeBytes (encChar c ++ encodeURIChars cs) = utf8Bytes c ++ utf8EncodeChars cs
    rw [show pctDecodeBytes (encChar c ++ encodeURIChars cs)
        = utf8Bytes c ++ pctDecodeBytes (encodeURIChars cs) from pctDecode_encChar c _, ih]

theorem pctTriple_ne_amp (b : Nat) (hb : b < 256) : ∀ c ∈ pctTriple b, c.toNat ≠ 38 := by
  intro c hc
  have h1 := hexDigitChar_ne_amp ⟨b / 16, by omega⟩
  have h2 := hexDigitChar_ne_amp ⟨b % 16, by omega⟩
  simp only [pctTriple, List.mem_cons, List.mem_singleton, List.not_mem_nil, or_false] at hc
  rcases hc with rfl | rfl | rfl
  · decide
  · exact h1
  · exact h2

theorem pctEncodeBytes_ne_amp (bs : List Nat) (h : ∀ b ∈ bs, b < 256) :
    ∀ c ∈ pctEncodeBytes bs, c.toNat ≠ 38 := by
  induction bs with
  | nil => intro c hc; simp [pctEncodeBytes] at hc
  | cons b bs ih =>
    intro c hc
    rw [pctEncodeBytes] at hc
    rcases List.mem_append.mp hc with hc | hc
    · exact pctTriple_ne_amp b (h b (List.mem_cons_self b bs)) c hc
    · exact ih (fun x hx => h x (List.mem_cons_of_mem b hx)) c hc

theorem encodeURIChars_ne_amp (cs : List Char) (h : ∀ c ∈ cs, c.toNat ≠ 38) :
    ∀ c ∈ encodeURIChars cs, c.toNat ≠ 38 := by
  induction cs with
  | nil => intro c hc; simp [encodeURIChars] at hc
  | cons c cs ih =>
    intro x hx
    rw [encodeURIChars] at hx
    rcases List.mem_append.mp hx with hx | hx
    · unfold encChar at hx
      by_cases hu : uriUnescaped c = true
      · rw [if_pos hu] at hx
        simp only [List.mem_singleton] at hx
        subst hx
        exact h x (List.mem_cons_self x cs)
      · rw [if_neg hu] at hx
        exact pctEncodeBytes_ne_amp _ (utf8Bytes_lt c) x hx
    · exact ih (fun y hy => h y (List.mem_cons_of_mem c hy)) x hx

theorem hexDigitChar_ne_hash : ∀ v : Fin 16, (hexDigitChar v.val).toNat ≠ 35 := by
  decide

theorem pctTriple_ne_hash (b : Nat) (hb : b < 256) : ∀ c ∈ pctTriple b, c.toNat ≠ 35 := by
  intro c hc
  have h1 := hexDigitChar_ne_hash ⟨b / 16, by omega⟩
  have h2 := hexDigitChar_ne_hash ⟨b % 16, by omega⟩
  simp only [pctTriple, List.mem_cons, List.mem_singleton, List.not_mem_nil, or_false] at hc
  rcases hc with rfl | rfl | rfl
  · decide
  · exact h1
  · exact h2

theorem pctEncodeBytes_ne_hash (bs : List Nat) (h : ∀ b ∈ bs, b < 256) :
    ∀ c ∈ pctEncodeBytes bs, c.toNat ≠ 35 := by
  induction bs with
  | nil => intro c hc; simp [pctEncodeBytes] at hc
  | cons b bs ih =>
    intro c hc
    rw [pctEncodeBytes] at hc
    rcases List.mem_append.mp hc with hc | hc
    · exact pctTriple_ne_hash b (h b (List.mem_cons_self b bs)) c hc
    · exact ih (fun x hx => h x (List.mem_cons_of_mem b hx)) c hc

theorem encodeURIChars_ne_hash (cs : List Char) (h : ∀ c ∈ cs, c.toNat ≠ 35) :
    ∀ c ∈ encodeURIChars cs, c.toNat ≠ 35 := by
  induction cs with
  | nil => intro c hc; simp [encodeURIChars] at hc
  | cons c cs ih =>
    intro x hx
    rw [encodeURIChars] at hx
    rcases List.mem_append.mp hx with hx | hx
    · unfold encChar at hx
      by_cases hu : uriUnescaped c = true
      · rw [if_pos hu] at hx
        simp only [List.mem_singleton] at hx
        subst hx
        exact h x (List.mem_cons_self x cs)
      · rw [if_neg hu] at hx
        exact pctEncodeBytes_ne_hash _ (utf8Bytes_lt c) x hx
    · exact ih (fun y hy => h y (List.mem_cons_of_mem c hy)) x hx

theorem beforeHash_all (xs : List Char) (h : ∀ c ∈ xs, c.toNat ≠ 35) :
    beforeHash xs = xs := by
  induction xs with
  | nil => rfl
  | cons c cs ih =>
    rw [beforeHash, if_neg (h c (List.mem_cons_self c cs)),
      ih (fun x hx => h x (List.mem_cons_of_mem c hx))]

theorem digitCharBounds :
    ∀ d : Fin 10, 48 ≤ (Char.ofNat (48 + d.val)).toNat ∧ (Char.ofNat (48 + d.val)).toNat ≤ 57 := by
  decide

theorem natToCharsAux_digit (fuel : Nat) :
    ∀ (n : Nat), ∀ c ∈ natToCharsAux fuel n, 48 ≤ c.toNat ∧ c.toNat ≤ 57 := by
  induction fuel with
  | zero => intro n c hc; simp [natToCharsAux] at hc
  | succ fuel ih =>
    intro n c hc
    rw [natToCharsAux] at hc
    split_ifs at hc with h
    · rw [List.mem_singleton] at hc
      subst hc
      exact digitCharBounds ⟨n, h⟩
    · rcases List.mem_append.mp hc with hc | hc
      · exact ih (n / 10) c hc
      · rw [List.mem_singleton] at hc
        subst hc
        exact digitCharBounds ⟨n % 10, by omega⟩

theorem afterQuestion_append (xs ys : List Char) (h : ∀ c ∈ xs, c.toNat ≠ 63) :
    afterQuestion (xs ++ ys) = afterQuestion ys := by
  induction xs with
  | nil => rfl
  | cons c cs ih =>
    show afterQuestion (c :: (cs ++ ys)) = _
    rw [afterQuestion, if_neg (h c (List.mem_cons_self c cs))]
    exact ih (fun x hx => h x (List.mem_cons_of_mem c hx))

theorem paramValue_append_amp (xs ys : List Char) (h : ∀ c ∈ xs, c.toNat ≠ 38) :
    paramValue (xs ++ '&' :: ys) = xs := by
  induction xs with
  | nil => rfl
  | cons c cs ih =>
    show paramValue (c :: (cs ++ '&' :: ys)) = _
    rw [paramValue, if_neg (h c (List.mem_cons_self c cs)),
      ih (fun x hx => h x (List.mem_cons_of_mem c hx))]

/-- Parsing a search URL built from a term free of ampersands and hash
marks recovers the term's UTF-8 bytes. The URL shape is the one `search`
builds: `term=` followed by the encoded term, then `&` and the rest of
the query; no component may contain a `#`, which would end the query. -/
theorem parse_built_search_url (sp : List Char) (term : String) (tail : List Char)
    (hs : ∀ c ∈ sp, c.toNat ≠ 63) (hsh : ∀ c ∈ sp, c.toNat ≠ 35)
    (ht : ∀ c ∈ term.data, c.toNat ≠ 38) (hth : ∀ c ∈ term.data, c.toNat ≠ 35)
    (htail : ∀ c ∈ tail, c.toNat ≠ 35) :
    (findTermQ (afterQuestion (beforeHash ("https://collectednotes.com/sites/".data ++
        (sp ++ ("/notes/search?term=".data ++
          (encodeURIChars term.data ++ ('&' :: tail)))))))).map pctDecodeBytes
      = some (utf8EncodeChars term.data) := by
  have hnohash : ∀ c ∈ ("https://collectednotes.com/sites/".data ++
      (sp ++ ("/notes/search?term=".data ++
        (encodeURIChars term.data ++ ('&' :: tail))))), c.toNat ≠ 35 := by
    intro c hc
    rcases List.mem_append.mp hc with hc | hc
    · exact (by decide : ∀ x ∈ "https://collectednotes.com/sites/".data, x.toNat ≠ 35) c hc
    · rcases List.mem_append.mp hc with hc | hc
      · exact hsh c hc
      · rcases List.mem_append.mp hc with hc | hc
        · exact (by decide : ∀ x ∈ "/notes/search?term=".data, x.toNat ≠ 35) c hc
        · rcases List.mem_append.mp hc with hc | hc
          · exact encodeURIChars_ne_hash term.data hth c hc
          · rcases List.mem_cons.mp hc with rfl | hc
            · decide
            · exact htail c hc
  rw [beforeHash_all _ hnohash]
  rw [afterQuestion_append _ _ (by decide)]
  rw [afterQuestion_append _ _ hs]
  rw [show "/notes/search?term=".data ++ (encodeURIChars term.data ++ ('&' :: tail))
      = "/notes/search".data ++ ('?' :: ('t' :: 'e' :: 'r' :: 'm' :: '=' ::
        (encodeURIChars term.data ++ ('&' :: tail)))) from rfl]
  rw [afterQuestion_append _ _ (by decide)]
  rw [show afterQuestion ('?' :: ('t' :: 'e' :: 'r' :: 'm' :: '=' ::
      (encodeURIChars term.data ++ ('&' :: tail))))
      = 't' :: 'e' :: 'r' :: 'm' :: '=' :: (encodeURIChars term.data ++ ('&' :: tail))
      from rfl]
  rw [show findTermQ ('t' :: 'e' :: 'r' :: 'm' :: '=' ::
      (encodeURIChars term.data ++ ('&' :: tail)))
      = some (paramValue (encodeURIChars term.data ++ ('&' :: tail))) from rfl]
  rw [Option.map_some']
  rw [paramValue_append_amp _ _ (encodeURIChars_ne_amp term.data ht)]
  rw [pctDecode_encodeURIChars]

/-! ### Claim theorems -/

/-- Claim C1, counterexample: the code performs no body validation. With
a body that does not start with the markdown heading marker, `create`
(and `update`) still invoke the transport exactly once — not zero times —
and no client-side error is raised: both resolve to the decoded response. -/
theorem create_unvalidated_body_counterexample :
    (((collectedNotes "user@example.com" "secret").create
        { body := "no heading", visibility := .notePublic } (some 1)
        stubTransport).1.length = 1)
    ∧ (((collectedNotes "user@example.com" "secret").create
        { body := "no heading", visibility := .notePublic } (some 1)
        stubTransport).2 = some Json.null)
    ∧ (((collectedNotes "user@example.com" "secret").update 1 2
        { body := "no heading", visibility := .notePublic }
        stubTransport).1.length = 1) :=
  ⟨rfl, rfl, rfl⟩

/-- Claim C1 (amended): `create` and `update` perform no client-side
validation of the note body: for every body — whether or not it starts
with the heading marker — each operation issues exactly one request
through the transport and has no error outcome. -/
theorem create_update_no_validation (email token : String) (note : NoteContent)
    (siteId : Option Nat) (s n : Nat) (tr : Transport) :
    ((collectedNotes email token).create note siteId tr).1.length = 1
    ∧ ((collectedNotes email token).update s n note tr).1.length = 1 := by
  constructor
  · cases siteId <;> rfl
  · rfl

/-- Claim C2 (code bug): `destroy` issues exactly one DELETE request to
the note's URL but resolves to the unit value — the source's return type
is `Promise<void>` and the response is discarded — so callers cannot
inspect an `ok` field, contradicting the repository's own test, which
expects the resolved value to be truthy. -/
theorem destroy_resolves_to_unit :
    (collectedNotes "user@example.com" "secret").destroy 1 2 stubTransport
      = ([{ url := "https://collectednotes.com/sites/1/notes/2",
            method := "DELETE",
            headers := authHeaders "user@example.com" "secret",
            body := none }], ()) :=
  rfl

/-- Claim C3: `reorder` POSTs exactly the JSON payload with the single
`ids` field holding the id list to the reorder endpoint and resolves to
the JSON value decoded from the service response; in particular it
resolves to `[2,3,1]` when the transport returns `[2,3,1]` for
`reorder(1, [2,3,1])`. -/
theorem reorder_sends_ids_returns_decoded (email token : String) (siteId : Nat)
    (ids : List Nat) (tr : Transport) :
    (collectedNotes email token).reorder siteId ids tr
      = ([{ url := "https://collectednotes.com/sites/" ++
              (natToString siteId ++ "/notes/reorder"),
            method := "POST",
            headers := authHeaders email token,
            body := some (jsonStringify (Json.obj
              [("ids", Json.arr (ids.map (fun i => Json.num (Int.ofNat i))))])) }],
         (tr { url := "https://collectednotes.com/sites/" ++
                  (natToString siteId ++ "/notes/reorder"),
                method := "POST",
                headers := authHeaders email token,
                body := some (jsonStringify (Json.obj
                  [("ids", Json.arr (ids.map (fun i => Json.num (Int.ofNat i))))])) }).json)
    ∧ ((collectedNotes email token).reorder 1 [2, 3, 1] idsTransport).2
        = some (Json.arr [Json.num 2, Json.num 3, Json.num 1]) :=
  ⟨rfl, rfl⟩

/-- Claim C4, counterexample: with format `html` the response body is a
pre-rendered HTML fragment that is not valid JSON, yet `links` resolves
to `none` (a JSON-decoding failure), not to the fragment: the code calls
the JSON decoder for both formats. -/
theorem links_html_counterexample :
    (((collectedNotes "user@example.com" "secret").links 1 2 (some .html)
        htmlTransport).2 = none)
    ∧ ((htmlTransport
          { url := "https://collectednotes.com/sites/1/notes/2/links",
            method := "GET", headers := authHeaders "user@example.com" "secret",
            body := none }).text = "<ul><li>a link</li></ul>") :=
  ⟨rfl, rfl⟩

/-- Claim C4 (amended): the format argument of `links` decides only the
URL suffix — `json` (or an omitted format) GETs the `.json` URL, `html`
GETs the suffix-less URL — while the resolved value is the JSON decoding
of the response body in both cases (the code always calls the JSON
decoder, never the text accessor). -/
theorem links_format_decides_url_only (email token : String) (s n : Nat)
    (tr : Transport) :
    ((collectedNotes email token).links s n (some .json) tr
      = ([{ url := "https://collectednotes.com/sites/" ++
              (natToString s ++ ("/notes/" ++ (natToString n ++ "/links.json"))),
            method := "GET", headers := authHeaders email token, body := none }],
         (tr { url := "https://collectednotes.com/sites/" ++
                  (natToString s ++ ("/notes/" ++ (natToString n ++ "/links.json"))),
                method := "GET", headers := authHeaders email token, body := none }).json))
    ∧ ((collectedNotes email token).links s n none tr
        = (collectedNotes email token).links s n (some .json) tr)
    ∧ ((collectedNotes email token).links s n (some .html) tr
      = ([{ url := "https://collectednotes.com/sites/" ++
              (natToString s ++ ("/notes/" ++ (natToString n ++ "/links"))),
            method := "GET", headers := authHeaders email token, body := none }],
         (tr { url := "https://collectednotes.com/sites/" ++
                  (natToString s ++ ("/notes/" ++ (natToString n ++ "/links"))),
                method := "GET", headers := authHeaders email token, body := none }).json)) :=
  ⟨rfl, rfl, rfl⟩

/-- Claim C5: `read` with format `md` GETs the URL ending in `.md` and
with format `txt` the URL ending in `.text`, each with no auth headers,
and each resolves to the transport's response body text unmodified. -/
theorem read_md_txt_raw_body (sp np : String) (tr : Transport) :
    (read sp np (some .md) tr
      = ([{ url := "https://collectednotes.com/" ++ (sp ++ ("/" ++ (np ++ ".md"))),
            method := "GET", headers := [], body := none }],
         .asText (tr
            { url := "https://collectednotes.com/" ++
                (sp ++ ("/" ++ (np ++ ".md"))),
              method := "GET", headers := [], body := none }).text))
    ∧ (read sp np (some .txt) tr
      = ([{ url := "https://collectednotes.com/" ++ (sp ++ ("/" ++ (np ++ ".text"))),
            method := "GET", headers := [], body := none }],
         .asText (tr
            { url := "https://collectednotes.com/" ++
                (sp ++ ("/" ++ (np ++ ".text"))),
              method := "GET", headers := [], body := none }).text)) :=
  ⟨rfl, rfl⟩

/-- Claim C6: `site` called with only a site path (both optional
arguments omitted) defaults the page to 1 and the visibility to
`public`, issues a single GET whose URL carries exactly those query
parameters, and resolves to the JSON decoded from the response — the
site-and-notes pairing served by the endpoint. -/
theorem site_defaults_page_visibility (sp : String) (tr : Transport) :
    (site sp none none tr
      = ([{ url := "https://collectednotes.com/" ++
              (sp ++ ".json?page=1&visibility=public"),
            method := "GET", headers := [], body := none }],
         (tr { url := "https://collectednotes.com/" ++
                  (sp ++ ".json?page=1&visibility=public"),
                method := "GET", headers := [], body := none }).json))
    ∧ (∀ j : Json,
        (site sp none none
          (fun _ => { ok := true, status := 200, json := some j, text := "" })).2
          = some j) :=
  ⟨rfl, fun _ => rfl⟩

/-- Claim C7: the factory builds one header set — Authorization is
exactly the email, one space and the token, plus the JSON Accept and
Content-Type headers — and every authenticated operation attaches
exactly that set to its single request; the set is a pure value of the
credentials, so no operation can modify it. (The re-exposed
unauthenticated `read` and `site` attach no headers; see C9.) -/
theorem authenticated_ops_share_headers (email token : String) :
    authHeaders email token
      = [("Authorization", email ++ (" " ++ token)),
         ("Accept", "application/json"), ("Content-Type", "application/json")]
    ∧ (∀ siteId page tr,
        (((collectedNotes email token).latestNotes siteId page tr).1.map
          Request.headers) = [authHeaders email token])
    ∧ (∀ tr, (((collectedNotes email token).sites tr).1.map Request.headers)
          = [authHeaders email token])
    ∧ (∀ note siteId tr,
        (((collectedNotes email token).create note siteId tr).1.map
          Request.headers) = [authHeaders email token])
    ∧ (∀ s n note tr,
        (((collectedNotes email token).update s n note tr).1.map
          Request.headers) = [authHeaders email token])
    ∧ (∀ s n tr,
        (((collectedNotes email token).destroy s n tr).1.map Request.headers)
          = [authHeaders email token])
    ∧ (∀ tr, (((collectedNotes email token).me tr).1.map Request.headers)
          = [authHeaders email token])
    ∧ (∀ s ids tr,
        (((collectedNotes email token).reorder s ids tr).1.map Request.headers)
          = [authHeaders email token])
    ∧ (∀ sp term page vis tr,
        (((collectedNotes email token).search sp term page vis tr).1.map
          Request.headers) = [authHeaders email token])
    ∧ (∀ s n tr,
        (((collectedNotes email token).body s n tr).1.map Request.headers)
          = [authHeaders email token])
    ∧ (∀ s n fmt tr,
        (((collectedNotes email token).links s n fmt tr).1.map Request.headers)
          = [authHeaders email token]) := by
  refine ⟨rfl, ?_, ?_, ?_, ?_, ?_, ?_, ?_, ?_, ?_, ?_⟩ <;> intros <;> rfl

/-- Claim C8, counterexample: `encodeURI` leaves the reserved characters
`&` and `#` unescaped. For the term `a&b` the issued search URL's query
is `term=a&b&page=1` and standard query-string parsing recovers only the
byte of `a` — not the bytes of `a&b`; likewise for the term `a#b` the
issued URL is `...search?term=a#b&page=1`, whose query component ends at
the fragment delimiter, so parsing again recovers only `a`. -/
theorem search_amp_counterexample :
    ((((collectedNotes "user@example.com" "secret").search "blog" "a&b" none none
        stubTransport).1.map (fun r => parsedTermBytes r.url))
      = [some [97]])
    ∧ (utf8EncodeChars "a&b".data = [97, 38, 98])
    ∧ (([some [97]] : List (Option (List Nat)))
        ≠ [some (utf8EncodeChars "a&b".data)])
    ∧ ((((collectedNotes "user@example.com" "secret").search "blog" "a#b" none none
        stubTransport).1.map (fun r => parsedTermBytes r.url))
      = [some [97]])
    ∧ (utf8EncodeChars "a#b".data = [97, 35, 98])
    ∧ (([some [97]] : List (Option (List Nat)))
        ≠ [some (utf8EncodeChars "a#b".data)]) := by
  refine ⟨rfl, rfl, ?_, rfl, rfl, ?_⟩ <;> decide

/-- Claim C8 (amended): `search` embeds `encodeURI(term)` as the `term`
query parameter, but `encodeURI` leaves its reserved characters — among
them `&` and the fragment delimiter `#` — unescaped. For every term
containing neither `&` nor `#` (and site path containing neither `?` nor
`#`) standard query-string parsing of the issued URL recovers exactly
the term's UTF-8 byte sequence; a term containing `&` or `#` is spliced
in unescaped and is not recovered. -/
theorem search_term_roundtrip (email token sitePath term : String)
    (page : Option Nat) (vis : Option NoteVisibility) (tr : Transport)
    (hs : ∀ c ∈ sitePath.data, c.toNat ≠ 63)
    (hsh : ∀ c ∈ sitePath.data, c.toNat ≠ 35)
    (ht : ∀ c ∈ term.data, c.toNat ≠ 38)
    (hth : ∀ c ∈ term.data, c.toNat ≠ 35) :
    (((collectedNotes email token).search sitePath term page vis tr).1.map
        (fun r => parsedTermBytes r.url))
      = [some (utf8EncodeChars term.data)] := by
  cases vis with
  | none =>
    refine congrArg (fun x => [x])
      (parse_built_search_url sitePath.data term
        ("page=".data ++ (natToString (page.getD 1)).data) hs hsh ht hth ?_)
    intro c hc
    rcases List.mem_append.mp hc with hc | hc
    · exact (by decide : ∀ x ∈ "page=".data, x.toNat ≠ 35) c hc
    · have hd := natToCharsAux_digit _ _ c hc
      omega
  | some v =>
    refine congrArg (fun x => [x])
      (parse_built_search_url sitePath.data term
        ("page=".data ++ ((natToString (page.getD 1)).data ++
          ("&visibility=".data ++ v.toStr.data))) hs hsh ht hth ?_)
    intro c hc
    rcases List.mem_append.mp hc with hc | hc
    · exact (by decide : ∀ x ∈ "page=".data, x.toNat ≠ 35) c hc
    · rcases List.mem_append.mp hc with hc | hc
      · have hd := natToCharsAux_digit _ _ c hc
        omega
      · rcases List.mem_append.mp hc with hc | hc
        · exact (by decide : ∀ x ∈ "&visibility=".data, x.toNat ≠ 35) c hc
        · cases v with
          | notePrivate => exact (by decide : ∀ x ∈ "private".data, x.toNat ≠ 35) c hc
          | notePublic => exact (by decide : ∀ x ∈ "public".data, x.toNat ≠ 35) c hc
          | publicUnlisted =>
            exact (by decide : ∀ x ∈ "public_unlisted".data, x.toNat ≠ 35) c hc
          | sitePublic => exact (by decide : ∀ x ∈ "site_public".data, x.toNat ≠ 35) c hc

/-- Witness for C8 (amended): a concrete round-trip, with a space that
gets percent-escaped and an exclamation mark that is kept verbatim. -/
theorem search_term_roundtrip_witness :
    (((collectedNotes "user@example.com" "secret").search "blog" "hello world!"
        none none stubTransport).1.map (fun r => parsedTermBytes r.url))
      = [some (utf8EncodeChars "hello world!".data)] :=
  search_term_roundtrip "user@example.com" "secret" "blog" "hello world!"
    none none stubTransport (by decide) (by decide) (by decide) (by decide)

/-- Claim C9: the `read` and `site` members of the client object are the
module-level unauthenticated functions themselves — definitionally equal,
hence issuing identical requests and returning identical results — and
every request they issue carries an empty header list (in particular no
Authorization header). -/
theorem read_site_reexposed (email token : String) :
    (collectedNotes email token).read = read
    ∧ (collectedNotes email token).site = site
    ∧ (∀ sp np fmt tr, ((read sp np fmt tr).1.map Request.headers) = [[]])
    ∧ (∀ sp page vis tr, ((site sp page vis tr).1.map Request.headers) = [[]]) := by
  refine ⟨rfl, rfl, ?_, ?_⟩
  · intro sp np fmt tr
    rcases fmt with _ | f
    · rfl
    · cases f <;> rfl
  · intro sp page vis tr
    rfl

/-- Claim C10: `create` tests the optional site id for JavaScript
truthiness, so a site id of `0` behaves exactly like an omitted site id
(POST to the default `notes/add` endpoint), while every nonzero site id
selects that site's notes collection endpoint. -/
theorem create_siteId_truthiness (email token : String) (note : NoteContent)
    (tr : Transport) :
    ((collectedNotes email token).create note (some 0) tr
      = (collectedNotes email token).create note none tr)
    ∧ (((collectedNotes email token).create note none tr).1.map Request.url
        = ["https://collectednotes.com/notes/add"])
    ∧ (∀ n : Nat, n ≠ 0 →
        ((collectedNotes email token).create note (some n) tr).1.map Request.url
          = ["https://collectednotes.com/sites/" ++ (natToString n ++ "/notes")]) := by
  refine ⟨rfl, rfl, ?_⟩
  intro n hn
  have hbne : (n != 0) = true := by simpa using hn
  simp only [collectedNotes, create, hbne, if_true, List.map]

/-- Witness for C10: the nonzero branch at site id 7. -/
theorem create_siteId_truthiness_witness :
    ((collectedNotes "user@example.com" "secret").create
        { body := "# Title", visibility := .notePublic } (some 7)
        stubTransport).1.map Request.url
      = ["https://collectednotes.com/sites/" ++ (natToString 7 ++ "/notes")] :=
  (create_siteId_truthiness "user@example.com" "secret"
    { body := "# Title", visibility := .notePublic } stubTransport).2.2 7
    (by decide)
